import Mathlib

/-!
Shallow embedding of the write-behind appointment sync queue
(`CacheService` in the repository's cache service module, together with the
`appointment_cache` / `appointments` tables of the drizzle schema and the
`IntakeQService` downstream client).

Modelling choices:
* Timestamps (`new Date()`) are modelled as natural numbers supplied by the
  environment (`SyncEnv.now`).
* The payload is an opaque string (`JSON.stringify` at enqueue time,
  `JSON.parse` at send time; the queue never inspects it).
* The downstream response `response.data` is a JavaScript object; property
  access on it is modelled as a string-keyed lookup (`jsGet`), because the
  worker reads `response.id` while the `IntakeQAppointment` interface (and
  the IntakeQ API) populate the key `Id`: access to an absent property
  yields `undefined`, modelled as `none`.
* A drizzle `update(..).set({...})` applies its defined values to every row
  matched by the `where` clause; a value that is `undefined` is dropped from
  the set clause, leaving the column unchanged.
* The effectful calls inside one `syncSingleAppointment` invocation that can
  throw are the downstream `createAppointment` call and the cross-entity
  `appointments` update; their combined result for a given cache-entry id is
  supplied by the environment as an `AttemptOutcome`.  Updates to the
  `appointment_cache` table itself are modelled as succeeding.
-/

namespace Retell

/-- The `sync_status` pgEnum of the schema: `pending`, `synced`, `failed`. -/
inductive SyncStatus
  | pending
  | synced
  | failed
deriving DecidableEq, Repr

/-- One row of the `appointment_cache` table (`AppointmentCache` in the schema). -/
structure CacheEntry where
  id : Nat
  appointmentId : Nat
  syncStatus : SyncStatus
  retryCount : Nat
  lastSyncAttempt : Option Nat
  errorMessage : Option String
  payload : String
  createdAt : Nat
  syncedAt : Option Nat
deriving DecidableEq, Repr

/-- One row of the `appointments` table, restricted to the fields the queue
touches (`id` and the IntakeQ back-reference `intakeqId`). -/
structure Appointment where
  id : Nat
  intakeqId : Option String
deriving DecidableEq, Repr

/-- The durable store: the cache table, the appointments table, and the next
serial id the database will assign to a cache row. -/
structure Store where
  cache : List CacheEntry
  appointments : List Appointment
  nextId : Nat
deriving DecidableEq, Repr

/-- The empty store. -/
def emptyStore : Store := { cache := [], appointments := [], nextId := 0 }

/-- A JavaScript object, as returned by the downstream client:
a finite map from property names to string values. -/
def JsObj := List (String × String)

/-- JavaScript property access: `obj.key` is the value stored under `key`,
or `undefined` (`none`) when the property is absent. -/
def jsGet (obj : JsObj) (key : String) : Option String :=
  (obj.find? (fun kv => kv.fst == key)).map (fun kv => kv.snd)

/-- Combined result of the two throwing calls inside one sync attempt:
`success resp` — `intakeqService.createAppointment` returned `resp` and the
cross-entity `appointments` update succeeded; `downstreamError msg` — the
downstream call threw an error with message `msg`; `crossUpdateError resp msg`
— the downstream call returned `resp` but the `appointments` update threw. -/
inductive AttemptOutcome
  | success (resp : JsObj)
  | downstreamError (msg : String)
  | crossUpdateError (resp : JsObj) (msg : String)

/-- Environment of one worker cycle: what each task's attempt does (keyed by
cache-entry id) and the current clock. -/
structure SyncEnv where
  outcome : Nat → AttemptOutcome
  now : Nat

/-- `maxRetries = 5` in `syncSingleAppointment`. -/
def maxRetries : Nat := 5

/-- `limit(10)` in `syncPendingAppointments`. -/
def batchSize : Nat := 10

/-- A drizzle `update(appointmentCache).set(..).where(eq(appointmentCache.id, cid))`:
apply `f` to every cache row whose `id` equals `cid`. -/
def updateCacheEntry (f : CacheEntry → CacheEntry) (cid : Nat) (c : List CacheEntry) : List CacheEntry :=
  c.map (fun r => if r.id = cid then f r else r)

/-- A drizzle set clause `{ intakeqId: v }`: when `v` is defined it assigns the
column, when it is `undefined` it is dropped and the row is unchanged. -/
def setIntakeqId (v : Option String) (a : Appointment) : Appointment :=
  match v with
  | some s => { a with intakeqId := some s }
  | none => a

/-- `update(appointments).set({ intakeqId: v }).where(eq(appointments.id, aid))`. -/
def updateAppointmentIntakeq (v : Option String) (aid : Nat) (l : List Appointment) : List Appointment :=
  l.map (fun a => if a.id = aid then setIntakeqId v a else a)

/-- The set clause `{ syncStatus: 'synced', syncedAt: new Date() }`. -/
def markSynced (now : Nat) (r : CacheEntry) : CacheEntry :=
  { r with syncStatus := SyncStatus.synced, syncedAt := some now }

/-- The set clause `{ syncStatus: 'failed', retryCount: n, lastSyncAttempt: new Date(),
errorMessage: msg }`. -/
def markFailed (n now : Nat) (msg : String) (r : CacheEntry) : CacheEntry :=
  { r with syncStatus := SyncStatus.failed, retryCount := n,
           lastSyncAttempt := some now, errorMessage := some msg }

/-- The set clause `{ retryCount: n, lastSyncAttempt: new Date(), errorMessage: msg }`
(the row's `syncStatus` is not touched). -/
def markRetried (n now : Nat) (msg : String) (r : CacheEntry) : CacheEntry :=
  { r with retryCount := n, lastSyncAttempt := some now, errorMessage := some msg }

/-- The catch block of `syncSingleAppointment`: `newRetryCount = entry.retryCount + 1`;
if it reached `maxRetries` mark the row `failed`, otherwise just record the
attempt; either way set `retryCount`, `lastSyncAttempt` and `errorMessage`,
keyed only by the row id. -/
def recordFailure (env : SyncEnv) (entry : CacheEntry) (msg : String) (st : Store) : Store :=
  let n := entry.retryCount + 1
  if maxRetries ≤ n then
    { st with cache := updateCacheEntry (markFailed n env.now msg) entry.id st.cache }
  else
    { st with cache := updateCacheEntry (markRetried n env.now msg) entry.id st.cache }

/-- `syncSingleAppointment(entry)`: call the downstream client; on success
write `response.id` to the appointment's `intakeqId` (note: the response
object's key is `Id`, so `response.id` is `undefined`) and mark the cache row
`synced` with `syncedAt = now`; on any throw run the catch block. -/
def syncSingleAppointment (env : SyncEnv) (entry : CacheEntry) (st : Store) : Store :=
  match env.outcome entry.id with
  | .success resp =>
      let apps := updateAppointmentIntakeq (jsGet resp "id") entry.appointmentId st.appointments
      let st1 := { st with appointments := apps }
      { st1 with cache := updateCacheEntry (markSynced env.now) entry.id st1.cache }
  | .downstreamError msg => recordFailure env entry msg st
  | .crossUpdateError _ msg => recordFailure env entry msg st

/-- The batch selection of `syncPendingAppointments`:
`select().from(appointmentCache).where(eq(syncStatus, 'pending')).limit(10)`. -/
def selectPending (st : Store) : List CacheEntry :=
  (st.cache.filter (fun e => e.syncStatus == SyncStatus.pending)).take batchSize

/-- One worker cycle: select the batch, then process each selected entry in
order with `syncSingleAppointment` (whose body catches all of its errors, so
the loop always runs to completion). -/
def syncPendingAppointments (env : SyncEnv) (st : Store) : Store :=
  (selectPending st).foldl (fun s entry => syncSingleAppointment env entry s) st

/-- `cacheAppointment(appointmentId, payload)`: insert one new cache row with
`syncStatus: 'pending'`, `retryCount: 0`; purely a local durable write. -/
def cacheAppointment (appointmentId : Nat) (payload : String) (now : Nat) (st : Store) : Store :=
  { st with
    cache := st.cache ++ [{ id := st.nextId, appointmentId := appointmentId,
                            syncStatus := .pending, retryCount := 0,
                            lastSyncAttempt := none, errorMessage := none,
                            payload := payload, createdAt := now, syncedAt := none }],
    nextId := st.nextId + 1 }

/-- The per-row effect of `retryFailedSyncs`: rows matched by
`where(eq(syncStatus, 'failed'))` get `{ syncStatus: 'pending', retryCount: 0,
errorMessage: null }`; other rows are untouched. -/
def resetFailed (e : CacheEntry) : CacheEntry :=
  if e.syncStatus = SyncStatus.failed then
    { e with syncStatus := .pending, retryCount := 0, errorMessage := none }
  else e

/-- `retryFailedSyncs()`: bulk update of every `failed` row back to `pending`. -/
def retryFailedSyncs (st : Store) : Store :=
  { st with cache := st.cache.map resetFailed }

/-- The first cache row with the given id (rows have unique serial ids in any
reachable store). -/
def findRow (st : Store) (cid : Nat) : Option CacheEntry :=
  st.cache.find? (fun r => r.id == cid)

/-- Stores reachable from the empty store through the operations of the queue:
enqueue, a worker cycle under an arbitrary environment, and the administrative
reset. -/
inductive Reachable : Store → Prop
  | empty : Reachable emptyStore
  | enqueue (aid : Nat) (p : String) (now : Nat) {st : Store} :
      Reachable st → Reachable (cacheAppointment aid p now st)
  | sync (env : SyncEnv) {st : Store} :
      Reachable st → Reachable (syncPendingAppointments env st)
  | reset {st : Store} : Reachable st → Reachable (retryFailedSyncs st)

/-- Per-row invariant of the retry policy: a `failed` row has used up exactly
`maxRetries` attempts, and a `pending` row still has an attempt left. -/
def entryOK (e : CacheEntry) : Prop :=
  (e.syncStatus = SyncStatus.failed → e.retryCount = maxRetries)
  ∧ (e.syncStatus = SyncStatus.pending → e.retryCount + 1 ≤ maxRetries)

/-- Store invariant: serial ids are below the allocator, ids are unique, and
every row satisfies the retry-policy invariant. -/
def StoreInv (st : Store) : Prop :=
  (∀ e ∈ st.cache, e.id < st.nextId)
  ∧ (st.cache.map (fun e => e.id)).Nodup
  ∧ (∀ e ∈ st.cache, entryOK e)

/-! Concrete instances used by witnesses and counterexamples. -/

/-- Environment in which every downstream call throws. -/
def failEnvW : SyncEnv := { outcome := fun _ => AttemptOutcome.downstreamError "boom", now := 7 }

/-- Environment in which every attempt fully succeeds, the downstream client
returning an object whose `Id` property is `"iq-123"`. -/
def okEnvW : SyncEnv :=
  { outcome := fun _ => AttemptOutcome.success [("Id", "iq-123")], now := 9 }

/-- Environment in which the downstream call returns an object but the
cross-entity `appointments` update throws. -/
def crossFailEnvW : SyncEnv :=
  { outcome := fun _ => AttemptOutcome.crossUpdateError [("Id", "iq-9")] "update failed",
    now := 100 }

/-- Environment of the isolation scenario: the attempt for cache-entry id 0
throws downstream, every other attempt fully succeeds. -/
def mixedEnvW : SyncEnv :=
  { outcome := fun n =>
      if n = 0 then AttemptOutcome.downstreamError "boom"
      else AttemptOutcome.success [("Id", "iq-7")],
    now := 3 }

/-- A fresh pending cache row for appointment 42. -/
def entryW1 : CacheEntry :=
  { id := 0, appointmentId := 42, syncStatus := .pending, retryCount := 0,
    lastSyncAttempt := none, errorMessage := none, payload := "p",
    createdAt := 1, syncedAt := none }

/-- A one-row store holding `entryW1`. -/
def stW1 : Store := { cache := [entryW1], appointments := [], nextId := 1 }

/-- A second pending cache row (id 1, appointment 43). -/
def entryW2 : CacheEntry :=
  { id := 1, appointmentId := 43, syncStatus := .pending, retryCount := 0,
    lastSyncAttempt := none, errorMessage := none, payload := "q",
    createdAt := 1, syncedAt := none }

/-- A two-row store for the batch-isolation scenario. -/
def stW7 : Store := { cache := [entryW1, entryW2], appointments := [], nextId := 2 }

/-- The store of the end-to-end exhaustion scenario: one enqueue followed by
five worker cycles in which every downstream call throws. -/
def stW5 : Store :=
  syncPendingAppointments failEnvW (syncPendingAppointments failEnvW
    (syncPendingAppointments failEnvW (syncPendingAppointments failEnvW
      (syncPendingAppointments failEnvW (cacheAppointment 42 "p" 1 emptyStore)))))

/-- A stale worker snapshot of row 0: read while `pending` with 4 attempts. -/
def snapC9 : CacheEntry :=
  { id := 0, appointmentId := 42, syncStatus := .pending, retryCount := 4,
    lastSyncAttempt := some 2, errorMessage := some "old", payload := "p",
    createdAt := 1, syncedAt := none }

/-- Row 0 as it currently is in the store: already `synced` since selection. -/
def rowC9 : CacheEntry :=
  { id := 0, appointmentId := 42, syncStatus := .synced, retryCount := 0,
    lastSyncAttempt := none, errorMessage := none, payload := "p",
    createdAt := 1, syncedAt := some 50 }

/-- A store in which row 0 has changed state (to `synced`) after the worker
read the `snapC9` snapshot. -/
def stC9 : Store := { cache := [rowC9], appointments := [], nextId := 1 }

/-- A pending row that has already failed three times, with its last error
recorded. -/
def rowW10 : CacheEntry :=
  { id := 3, appointmentId := 8, syncStatus := .pending, retryCount := 3,
    lastSyncAttempt := some 5, errorMessage := some "prev", payload := "r",
    createdAt := 2, syncedAt := none }

/-- A store holding `rowW10` and its primary appointment record. -/
def stW10 : Store :=
  { cache := [rowW10], appointments := [{ id := 8, intakeqId := none }], nextId := 4 }

/-- A one-row store for the buggy back-reference scenario: pending cache row 0
for appointment 1, whose appointment record has no IntakeQ id yet. -/
def stC8 : Store :=
  { cache := [{ id := 0, appointmentId := 1, syncStatus := .pending, retryCount := 0,
                lastSyncAttempt := none, errorMessage := none, payload := "p",
                createdAt := 1, syncedAt := none }],
    appointments := [{ id := 1, intakeqId := none }], nextId := 1 }

/-- The cache row of `stC8`. -/
def entryC8 : CacheEntry :=
  { id := 0, appointmentId := 1, syncStatus := .pending, retryCount := 0,
    lastSyncAttempt := none, errorMessage := none, payload := "p",
    createdAt := 1, syncedAt := none }

/-! Helper lemmas about the row-update primitives. -/

theorem find?_updateCacheEntry (g : CacheEntry → CacheEntry) (hg : ∀ r, (g r).id = r.id)
    (cid : Nat) (c : List CacheEntry) :
    (updateCacheEntry g cid c).find? (fun r => r.id == cid)
      = (c.find? (fun r => r.id == cid)).map g := by
  induction c with
  | nil => rfl
  | cons r c ih =>
    unfold updateCacheEntry at ih ⊢
    rw [List.map_cons]
    by_cases h : r.id = cid
    · rw [if_pos h, List.find?_cons_of_pos _ (by simp [hg r, h]),
        List.find?_cons_of_pos _ (by simp [h]), Option.map_some']
    · rw [if_neg h, List.find?_cons_of_neg _ (by simp [h]),
        List.find?_cons_of_neg _ (by simp [h]), ih]

theorem find?_updateCacheEntry_ne (g : CacheEntry → CacheEntry) (hg : ∀ r, (g r).id = r.id)
    {eid cid : Nat} (h : eid ≠ cid) (c : List CacheEntry) :
    (updateCacheEntry g eid c).find? (fun r => r.id == cid)
      = c.find? (fun r => r.id == cid) := by
  induction c with
  | nil => rfl
  | cons r c ih =>
    unfold updateCacheEntry at ih ⊢
    rw [List.map_cons]
    by_cases hr : r.id = eid
    · rw [if_pos hr, List.find?_cons_of_neg _ (by simp [hg r, hr, h]),
        List.find?_cons_of_neg _ (by simp [hr, h]), ih]
    · by_cases hc : r.id = cid
      · rw [if_neg hr, List.find?_cons_of_pos _ (by simp [hc]),
          List.find?_cons_of_pos _ (by simp [hc])]
      · rw [if_neg hr, List.find?_cons_of_neg _ (by simp [hc]),
          List.find?_cons_of_neg _ (by simp [hc]), ih]

theorem ids_updateCacheEntry (g : CacheEntry → CacheEntry) (hg : ∀ r, (g r).id = r.id)
    (cid : Nat) (c : List CacheEntry) :
    (updateCacheEntry g cid c).map (fun r => r.id) = c.map (fun r => r.id) := by
  unfold updateCacheEntry
  rw [List.map_map]
  apply List.map_congr_left
  intro r _
  by_cases h : r.id = cid <;> simp [h, hg r]

theorem find?_id_eq_of_mem {c : List CacheEntry} (hnd : (c.map (fun e => e.id)).Nodup)
    {e : CacheEntry} (he : e ∈ c) :
    c.find? (fun r => r.id == e.id) = some e := by
  have hsome : (c.find? (fun r => r.id == e.id)).isSome :=
    List.find?_isSome.mpr ⟨e, he, by simp⟩
  obtain ⟨r, hr⟩ := Option.isSome_iff_exists.mp hsome
  have hrmem := List.mem_of_find?_eq_some hr
  have hrp : r.id = e.id := by simpa using List.find?_some hr
  rw [hr, List.inj_on_of_nodup_map hnd hrmem he hrp]

/-! Shape of one `syncSingleAppointment` step: whatever the outcome, the cache
is rewritten by a single id-keyed conditional map, whose per-row effect is one
of three record updates. -/

theorem syncSingle_shape (env : SyncEnv) (e : CacheEntry) (st : Store) :
    ∃ g : CacheEntry → CacheEntry,
      (syncSingleAppointment env e st).cache = updateCacheEntry g e.id st.cache
      ∧ (∀ r, (g r).id = r.id)
      ∧ ((∀ r, (g r).syncStatus = SyncStatus.synced ∧ (g r).retryCount = r.retryCount)
         ∨ (maxRetries ≤ e.retryCount + 1
             ∧ ∀ r, (g r).syncStatus = SyncStatus.failed ∧ (g r).retryCount = e.retryCount + 1)
         ∨ (e.retryCount + 1 < maxRetries
             ∧ ∀ r, (g r).syncStatus = r.syncStatus ∧ (g r).retryCount = e.retryCount + 1)) := by
  cases hout : env.outcome e.id with
  | success resp =>
    refine ⟨markSynced env.now, ?_, fun r => rfl, Or.inl fun r => ⟨rfl, rfl⟩⟩
    simp [syncSingleAppointment, hout]
  | downstreamError msg =>
    by_cases h : maxRetries ≤ e.retryCount + 1
    · refine ⟨markFailed (e.retryCount + 1) env.now msg, ?_, fun r => rfl,
        Or.inr (Or.inl ⟨h, fun r => ⟨rfl, rfl⟩⟩)⟩
      simp [syncSingleAppointment, hout, recordFailure, h]
    · refine ⟨markRetried (e.retryCount + 1) env.now msg, ?_, fun r => rfl,
        Or.inr (Or.inr ⟨Nat.lt_of_not_le h, fun r => ⟨rfl, rfl⟩⟩)⟩
      simp [syncSingleAppointment, hout, recordFailure, h]
  | crossUpdateError resp msg =>
    by_cases h : maxRetries ≤ e.retryCount + 1
    · refine ⟨markFailed (e.retryCount + 1) env.now msg, ?_, fun r => rfl,
        Or.inr (Or.inl ⟨h, fun r => ⟨rfl, rfl⟩⟩)⟩
      simp [syncSingleAppointment, hout, recordFailure, h]
    · refine ⟨markRetried (e.retryCount + 1) env.now msg, ?_, fun r => rfl,
        Or.inr (Or.inr ⟨Nat.lt_of_not_le h, fun r => ⟨rfl, rfl⟩⟩)⟩
      simp [syncSingleAppointment, hout, recordFailure, h]

theorem syncSingle_ids (env : SyncEnv) (e : CacheEntry) (st : Store) :
    (syncSingleAppointment env e st).cache.map (fun r => r.id) = st.cache.map (fun r => r.id) := by
  obtain ⟨g, hc, hid, _⟩ := syncSingle_shape env e st
  rw [hc, ids_updateCacheEntry g hid]

theorem syncSingle_nextId (env : SyncEnv) (e : CacheEntry) (st : Store) :
    (syncSingleAppointment env e st).nextId = st.nextId := by
  cases hout : env.outcome e.id <;>
    simp [syncSingleAppointment, hout, recordFailure] <;> split <;> rfl

theorem foldl_ids (env : SyncEnv) (l : List CacheEntry) (st : Store) :
    ((l.foldl (fun s e => syncSingleAppointment env e s) st).cache.map (fun r => r.id))
      = st.cache.map (fun r => r.id) := by
  induction l generalizing st with
  | nil => rfl
  | cons e l ih => rw [List.foldl_cons, ih, syncSingle_ids]

theorem foldl_nextId (env : SyncEnv) (l : List CacheEntry) (st : Store) :
    (l.foldl (fun s e => syncSingleAppointment env e s) st).nextId = st.nextId := by
  induction l generalizing st with
  | nil => rfl
  | cons e l ih => rw [List.foldl_cons, ih, syncSingle_nextId]

/-! How one step changes `findRow` at the processed id, and leaves every other
id alone. -/

theorem findRow_syncSingle_success (env : SyncEnv) (entry : CacheEntry) (st : Store)
    {resp : JsObj} (hout : env.outcome entry.id = AttemptOutcome.success resp) :
    findRow (syncSingleAppointment env entry st) entry.id
      = (findRow st entry.id).map (markSynced env.now) := by
  unfold findRow
  have hc : (syncSingleAppointment env entry st).cache
      = updateCacheEntry (markSynced env.now) entry.id st.cache := by
    simp [syncSingleAppointment, hout]
  rw [hc, find?_updateCacheEntry (markSynced env.now) (fun r => rfl)]

theorem findRow_recordFailure (env : SyncEnv) (entry : CacheEntry) (msg : String) (st : Store) :
    findRow (recordFailure env entry msg st) entry.id
      = (findRow st entry.id).map
          (if maxRetries ≤ entry.retryCount + 1
           then markFailed (entry.retryCount + 1) env.now msg
           else markRetried (entry.retryCount + 1) env.now msg) := by
  unfold findRow recordFailure
  by_cases h : maxRetries ≤ entry.retryCount + 1
  · rw [if_pos h, if_pos h]
    exact find?_updateCacheEntry (markFailed (entry.retryCount + 1) env.now msg) (fun r => rfl) entry.id st.cache
  · rw [if_neg h, if_neg h]
    exact find?_updateCacheEntry (markRetried (entry.retryCount + 1) env.now msg) (fun r => rfl) entry.id st.cache

theorem findRow_syncSingle_ne (env : SyncEnv) (e : CacheEntry) (st : Store) {cid : Nat}
    (h : e.id ≠ cid) :
    findRow (syncSingleAppointment env e st) cid = findRow st cid := by
  obtain ⟨g, hc, hgid, _⟩ := syncSingle_shape env e st
  unfold findRow
  rw [hc, find?_updateCacheEntry_ne g hgid h]

theorem findRow_foldl_ne (env : SyncEnv) (l : List CacheEntry) (st : Store) (cid : Nat)
    (h : ∀ e ∈ l, e.id ≠ cid) :
    findRow (l.foldl (fun s e => syncSingleAppointment env e s) st) cid = findRow st cid := by
  induction l generalizing st with
  | nil => rfl
  | cons e l ih =>
    rw [List.foldl_cons, ih _ (fun x hx => h x (List.mem_cons_of_mem _ hx)),
      findRow_syncSingle_ne env e st (h e (List.mem_cons_self _ _))]

theorem findRow_foldl_success (env : SyncEnv) (l : List CacheEntry) (st : Store)
    (B : CacheEntry) (resp : JsObj)
    (hB : B ∈ l) (hnd : (l.map (fun e => e.id)).Nodup)
    (hout : env.outcome B.id = AttemptOutcome.success resp)
    (hrow : findRow st B.id = some B) :
    findRow (l.foldl (fun s e => syncSingleAppointment env e s) st) B.id
      = some (markSynced env.now B) := by
  induction l generalizing st with
  | nil => cases hB
  | cons e l ih =>
    rw [List.foldl_cons]
    have hmapnd : (e.id :: l.map (fun x => x.id)).Nodup := by simpa using hnd
    rcases List.mem_cons.mp hB with rfl | hBl
    · have hne : ∀ x ∈ l, x.id ≠ B.id := by
        intro x hx hxe
        exact (List.nodup_cons.mp hmapnd).1 (hxe ▸ List.mem_map_of_mem _ hx)
      rw [findRow_foldl_ne env l _ _ hne, findRow_syncSingle_success env B st hout, hrow]
      rfl
    · have hene : e.id ≠ B.id := by
        intro hcontra
        exact (List.nodup_cons.mp hmapnd).1 (hcontra ▸ List.mem_map_of_mem _ hBl)
      refine ih _ hBl (List.nodup_cons.mp hmapnd).2 ?_
      rw [findRow_syncSingle_ne env e st hene]
      exact hrow

/-! Selection facts. -/

theorem selectPending_sublist (st : Store) : List.Sublist (selectPending st) st.cache :=
  (List.take_sublist _ _).trans (List.filter_sublist _)

theorem mem_selectPending {st : Store} {e : CacheEntry} (h : e ∈ selectPending st) :
    e ∈ st.cache ∧ e.syncStatus = SyncStatus.pending := by
  unfold selectPending at h
  have h1 := List.mem_of_mem_take h
  have h2 := List.mem_filter.mp h1
  exact ⟨h2.1, by simpa using h2.2⟩

theorem selectPending_ids_nodup {st : Store}
    (hnd : (st.cache.map (fun e => e.id)).Nodup) :
    ((selectPending st).map (fun e => e.id)).Nodup :=
  ((selectPending_sublist st).map _).nodup hnd

theorem findRow_eq_of_mem {st : Store} {e : CacheEntry}
    (hnd : (st.cache.map (fun x => x.id)).Nodup) (he : e ∈ st.cache) :
    findRow st e.id = some e :=
  find?_id_eq_of_mem hnd he

/-! Preservation of the retry-policy invariant. -/

theorem cacheOK_foldl (env : SyncEnv) (l : List CacheEntry) (st : Store)
    (hc : ∀ r ∈ st.cache, entryOK r)
    (hl : ∀ e ∈ l, e.retryCount + 1 ≤ maxRetries)
    (hrows : ∀ e ∈ l, ∀ r ∈ st.cache, r.id = e.id → r.syncStatus ≠ SyncStatus.failed)
    (hnd : (l.map (fun e => e.id)).Nodup) :
    ∀ r ∈ (l.foldl (fun s e => syncSingleAppointment env e s) st).cache, entryOK r := by
  induction l generalizing st with
  | nil => exact hc
  | cons e l ih =>
    rw [List.foldl_cons]
    obtain ⟨g, hcache, hgid, hshape⟩ := syncSingle_shape env e st
    have hmapnd : (e.id :: l.map (fun x => x.id)).Nodup := by simpa using hnd
    have hni := (List.nodup_cons.mp hmapnd).1
    have hmem : ∀ r' ∈ (syncSingleAppointment env e st).cache,
        ∃ r ∈ st.cache, r' = if r.id = e.id then g r else r := by
      intro r' hr'
      rw [hcache] at hr'
      obtain ⟨r, hr, hrr⟩ := List.mem_map.mp hr'
      exact ⟨r, hr, hrr.symm⟩
    refine ih _ ?_ (fun x hx => hl x (List.mem_cons_of_mem _ hx)) ?_
      (List.nodup_cons.mp hmapnd).2
    · -- every row of the new store satisfies entryOK
      intro r' hr'
      obtain ⟨r, hr, rfl⟩ := hmem r' hr'
      by_cases hid : r.id = e.id
      · rw [if_pos hid]
        rcases hshape with hsync | ⟨hge, hfl⟩ | ⟨hlt, hkeep⟩
        · constructor
          · intro hcontra
            rw [(hsync r).1] at hcontra
            exact nomatch hcontra
          · intro hcontra
            rw [(hsync r).1] at hcontra
            exact nomatch hcontra
        · have h5 : e.retryCount + 1 = maxRetries :=
            Nat.le_antisymm (hl e (List.mem_cons_self _ _)) hge
          constructor
          · intro _
            rw [(hfl r).2, h5]
          · intro hcontra
            rw [(hfl r).1] at hcontra
            exact nomatch hcontra
        · have hnf : r.syncStatus ≠ SyncStatus.failed :=
            hrows e (List.mem_cons_self _ _) r hr hid
          constructor
          · intro hcontra
            rw [(hkeep r).1] at hcontra
            exact absurd hcontra hnf
          · intro _
            rw [(hkeep r).2]
            exact hlt
      · rw [if_neg hid]
        exact hc r hr
    · -- rows matching a later selected id are still not failed
      intro e' he' r' hr' hre'
      obtain ⟨r, hr, rfl⟩ := hmem r' hr'
      by_cases hid : r.id = e.id
      · exfalso
        rw [if_pos hid] at hre'
        rw [hgid r, hid] at hre'
        exact hni (hre' ▸ List.mem_map_of_mem _ he')
      · rw [if_neg hid] at hre' ⊢
        exact hrows e' (List.mem_cons_of_mem _ he') r hr hre'

theorem storeInv_enqueue (aid : Nat) (p : String) (now : Nat) {st : Store}
    (h : StoreInv st) : StoreInv (cacheAppointment aid p now st) := by
  obtain ⟨hb, hnd, hok⟩ := h
  refine ⟨?_, ?_, ?_⟩
  · intro e he
    simp only [cacheAppointment, List.mem_append, List.mem_singleton] at he
    rcases he with he | rfl
    · exact Nat.lt_succ_of_lt (hb e he)
    · exact Nat.lt_succ_self _
  · simp only [cacheAppointment, List.map_append, List.map_cons, List.map_nil]
    rw [List.nodup_append]
    refine ⟨hnd, List.nodup_singleton _, ?_⟩
    intro x hx hx1
    rw [List.mem_singleton] at hx1
    obtain ⟨r, hr, hre⟩ := List.mem_map.mp hx
    subst hx1
    exact absurd (hre ▸ hb r hr) (Nat.lt_irrefl _)
  · intro e he
    simp only [cacheAppointment, List.mem_append, List.mem_singleton] at he
    rcases he with he | rfl
    · exact hok e he
    · unfold entryOK
      refine ⟨fun hcontra => (nomatch hcontra), fun _ => ?_⟩
      show 0 + 1 ≤ maxRetries
      decide

theorem storeInv_reset {st : Store} (h : StoreInv st) : StoreInv (retryFailedSyncs st) := by
  obtain ⟨hb, hnd, hok⟩ := h
  have hid : ∀ e, (resetFailed e).id = e.id := by
    intro e
    unfold resetFailed
    split <;> rfl
  refine ⟨?_, ?_, ?_⟩
  · intro e he
    simp only [retryFailedSyncs] at he ⊢
    obtain ⟨r, hr, rfl⟩ := List.mem_map.mp he
    rw [hid r]
    exact hb r hr
  · simp only [retryFailedSyncs, List.map_map]
    have : ((fun e : CacheEntry => e.id) ∘ resetFailed) = fun e : CacheEntry => e.id := by
      funext e
      exact hid e
    rw [this]
    exact hnd
  · intro e he
    simp only [retryFailedSyncs] at he
    obtain ⟨r, hr, rfl⟩ := List.mem_map.mp he
    unfold resetFailed
    split
    · unfold entryOK
      refine ⟨fun hcontra => (nomatch hcontra), fun _ => ?_⟩
      show 0 + 1 ≤ maxRetries
      decide
    · exact hok r hr

theorem storeInv_sync (env : SyncEnv) {st : Store} (h : StoreInv st) :
    StoreInv (syncPendingAppointments env st) := by
  obtain ⟨hb, hnd, hok⟩ := h
  have hids := foldl_ids env (selectPending st) st
  have hnext := foldl_nextId env (selectPending st) st
  unfold syncPendingAppointments
  refine ⟨?_, ?_, ?_⟩
  · intro e he
    have hmi : e.id ∈ st.cache.map (fun r => r.id) := by
      rw [← hids]
      exact List.mem_map_of_mem _ he
    obtain ⟨r, hr, hre⟩ := List.mem_map.mp hmi
    rw [hnext, ← hre]
    exact hb r hr
  · rw [hids]
    exact hnd
  · refine cacheOK_foldl env (selectPending st) st hok ?_ ?_ (selectPending_ids_nodup hnd)
    · intro e he
      obtain ⟨hmem, hpend⟩ := mem_selectPending he
      exact (hok e hmem).2 hpend
    · intro e he r hr hre
      obtain ⟨hmem, hpend⟩ := mem_selectPending he
      have : r = e := List.inj_on_of_nodup_map hnd hr hmem hre
      rw [this, hpend]
      exact fun hcontra => nomatch hcontra

theorem storeInv_emptyStore : StoreInv emptyStore := by
  refine ⟨?_, ?_, ?_⟩ <;> simp [emptyStore]

theorem storeInv_reachable {st : Store} (h : Reachable st) : StoreInv st := by
  induction h with
  | empty => exact storeInv_emptyStore
  | enqueue aid p now _ ih => exact storeInv_enqueue aid p now ih
  | sync env _ ih => exact storeInv_sync env ih
  | reset _ ih => exact storeInv_reset ih

/-! The claims. -/

/-- C1: For a task processed by the worker whose downstream call throws, the
catch block increments the row's `retryCount` by exactly 1 and records the
error message (and the attempt time); if the incremented count reached
`maxRetries` (5) the row's state is set to `failed`, otherwise the state
remains `pending`. -/
theorem failure_increments_and_records (env : SyncEnv) (entry : CacheEntry)
    (msg : String) (st : Store)
    (hout : env.outcome entry.id = AttemptOutcome.downstreamError msg)
    (hmem : entry ∈ st.cache) (hpend : entry.syncStatus = SyncStatus.pending)
    (hnd : (st.cache.map (fun e => e.id)).Nodup) :
    ∃ r' : CacheEntry,
      findRow (syncSingleAppointment env entry st) entry.id = some r'
      ∧ r'.retryCount = entry.retryCount + 1
      ∧ r'.errorMessage = some msg
      ∧ r'.lastSyncAttempt = some env.now
      ∧ r'.syncStatus = (if maxRetries ≤ entry.retryCount + 1
                         then SyncStatus.failed else SyncStatus.pending) := by
  have h1 : syncSingleAppointment env entry st = recordFailure env entry msg st := by
    simp [syncSingleAppointment, hout]
  rw [h1, findRow_recordFailure, findRow_eq_of_mem hnd hmem, Option.map_some']
  by_cases h : maxRetries ≤ entry.retryCount + 1
  · simp only [if_pos h]
    exact ⟨markFailed (entry.retryCount + 1) env.now msg entry, rfl, rfl, rfl, rfl, rfl⟩
  · simp only [if_neg h]
    exact ⟨markRetried (entry.retryCount + 1) env.now msg entry, rfl, rfl, rfl, rfl, hpend⟩

/-- Witness for C1: a fresh pending task whose downstream call throws ends the
step with `retryCount` 1, the error recorded, and state still `pending`. -/
theorem failure_increments_witness :
    ∃ r' : CacheEntry,
      findRow (syncSingleAppointment failEnvW entryW1 stW1) entryW1.id = some r'
      ∧ r'.retryCount = entryW1.retryCount + 1
      ∧ r'.errorMessage = some "boom"
      ∧ r'.lastSyncAttempt = some failEnvW.now
      ∧ r'.syncStatus = (if maxRetries ≤ entryW1.retryCount + 1
                         then SyncStatus.failed else SyncStatus.pending) :=
  failure_increments_and_records failEnvW entryW1 "boom" stW1 rfl (by decide) rfl (by decide)

/-- C2 counterexample: the downstream client reports success (it returns a
response object), but the cross-entity `appointments` update throws; the task
is then NOT marked `synced` — the attempt is recorded as a failure instead
(state stays `pending`, `retryCount` is incremented, `syncedAt` stays null),
so the cross-entity update failure does roll back the sync outcome. -/
theorem cross_update_failure_not_synced_cex :
    crossFailEnvW.outcome entryW1.id
        = AttemptOutcome.crossUpdateError [("Id", "iq-9")] "update failed"
    ∧ (findRow (syncSingleAppointment crossFailEnvW entryW1 stW1) entryW1.id).map
        (fun r => r.syncStatus) = some SyncStatus.pending
    ∧ (findRow (syncSingleAppointment crossFailEnvW entryW1 stW1) entryW1.id).map
        (fun r => r.retryCount) = some 1
    ∧ (findRow (syncSingleAppointment crossFailEnvW entryW1 stW1) entryW1.id).map
        (fun r => r.syncedAt) = some none := by
  refine ⟨rfl, ?_, ?_, ?_⟩ <;> decide

/-- C2 (amended): a pending task transitions to `synced` (with `syncedAt`
set) iff its whole attempt succeeds, i.e. the downstream client reports
success AND the subsequent cross-entity back-reference update succeeds; the
cross-entity update is not best-effort — it runs before the `synced` mark in
the same try block, so its failure prevents the `synced` transition. -/
theorem synced_iff_full_success (env : SyncEnv) (entry : CacheEntry) (st : Store)
    (hmem : entry ∈ st.cache) (hpend : entry.syncStatus = SyncStatus.pending)
    (hnd : (st.cache.map (fun e => e.id)).Nodup) :
    ((findRow (syncSingleAppointment env entry st) entry.id).map (fun r => r.syncStatus)
        = some SyncStatus.synced
      ↔ ∃ resp, env.outcome entry.id = AttemptOutcome.success resp)
    ∧ (∀ resp, env.outcome entry.id = AttemptOutcome.success resp →
        findRow (syncSingleAppointment env entry st) entry.id
          = some (markSynced env.now entry)) := by
  have hrow := findRow_eq_of_mem hnd hmem
  have hfail : ∀ msg, syncSingleAppointment env entry st = recordFailure env entry msg st →
      ¬ ((findRow (syncSingleAppointment env entry st) entry.id).map (fun r => r.syncStatus)
          = some SyncStatus.synced) := by
    intro msg h1 hs
    rw [h1, findRow_recordFailure, hrow] at hs
    simp only [Option.map_some'] at hs
    by_cases h : maxRetries ≤ entry.retryCount + 1
    · rw [if_pos h] at hs
      exact nomatch hs
    · rw [if_neg h] at hs
      have hs' : entry.syncStatus = SyncStatus.synced := Option.some.inj hs
      rw [hpend] at hs'
      exact nomatch hs'
  constructor
  · constructor
    · intro hs
      cases hout : env.outcome entry.id with
      | success resp => exact ⟨resp, rfl⟩
      | downstreamError msg =>
        exact absurd hs (hfail msg (by simp [syncSingleAppointment, hout]))
      | crossUpdateError resp msg =>
        exact absurd hs (hfail msg (by simp [syncSingleAppointment, hout]))
    · rintro ⟨resp, hout⟩
      rw [findRow_syncSingle_success env entry st hout, hrow]
      rfl
  · intro resp hout
    rw [findRow_syncSingle_success env entry st hout, hrow]
    rfl

/-- Witness for the amended C2: with a fully successful attempt the task is
marked `synced` with `syncedAt` set. -/
theorem synced_iff_full_success_witness :
    ((findRow (syncSingleAppointment okEnvW entryW1 stW1) entryW1.id).map
        (fun r => r.syncStatus) = some SyncStatus.synced
      ↔ ∃ resp, okEnvW.outcome entryW1.id = AttemptOutcome.success resp)
    ∧ (∀ resp, okEnvW.outcome entryW1.id = AttemptOutcome.success resp →
        findRow (syncSingleAppointment okEnvW entryW1 stW1) entryW1.id
          = some (markSynced okEnvW.now entryW1)) :=
  synced_iff_full_success okEnvW entryW1 stW1 (by decide) rfl (by decide)

/-- C3: a successful `cacheAppointment(appointmentId, payload)` call appends
exactly one new task row, in state `pending` with `retryCount = 0`, leaving
every existing row and the `appointments` table unchanged; the definition
takes no downstream collaborator at all, so it cannot fail because the
downstream system is unavailable. -/
theorem cacheAppointment_adds_pending_row (aid : Nat) (p : String) (now : Nat) (st : Store) :
    ∃ e : CacheEntry,
      (cacheAppointment aid p now st).cache = st.cache ++ [e]
      ∧ e.syncStatus = SyncStatus.pending
      ∧ e.retryCount = 0
      ∧ e.appointmentId = aid
      ∧ e.payload = p
      ∧ (cacheAppointment aid p now st).appointments = st.appointments :=
  ⟨_, rfl, rfl, rfl, rfl, rfl, rfl⟩

/-- C4: `retryFailedSyncs` maps every row through `resetFailed`, which sends
a `failed` row to `pending` with `retryCount` 0 and `errorMessage` null and
leaves every other row unchanged; it is idempotent, and on a store with no
`failed` row it is a no-op. -/
theorem retryFailedSyncs_resets_and_idempotent (st : Store) :
    retryFailedSyncs (retryFailedSyncs st) = retryFailedSyncs st
    ∧ ((∀ e ∈ st.cache, e.syncStatus ≠ SyncStatus.failed) → retryFailedSyncs st = st)
    ∧ (∀ i : Nat, (retryFailedSyncs st).cache[i]? = (st.cache[i]?).map resetFailed)
    ∧ (∀ e : CacheEntry, e.syncStatus = SyncStatus.failed →
        resetFailed e = { e with syncStatus := SyncStatus.pending, retryCount := 0,
                                 errorMessage := none })
    ∧ (∀ e : CacheEntry, e.syncStatus ≠ SyncStatus.failed → resetFailed e = e) := by
  refine ⟨?_, ?_, ?_, ?_, ?_⟩
  · have hmap : (st.cache.map resetFailed).map resetFailed = st.cache.map resetFailed := by
      rw [List.map_map]
      apply List.map_congr_left
      intro e _
      show resetFailed (resetFailed e) = resetFailed e
      by_cases h : e.syncStatus = SyncStatus.failed <;> simp [resetFailed, h]
    simp only [retryFailedSyncs]
    rw [hmap]
  · intro h
    have hmap : st.cache.map resetFailed = st.cache := by
      conv_rhs => rw [← List.map_id st.cache]
      apply List.map_congr_left
      intro e he
      simp [resetFailed, h e he]
    simp only [retryFailedSyncs]
    rw [hmap]
  · intro i
    simp [retryFailedSyncs]
  · intro e he
    simp [resetFailed, he]
  · intro e he
    simp [resetFailed, he]

/-- Witness for C4: idempotence on the exhausted store `stW5` (which holds a
`failed` row) and no-op behaviour on the all-pending store `stW1`. -/
theorem retryFailedSyncs_witness :
    retryFailedSyncs (retryFailedSyncs stW5) = retryFailedSyncs stW5
    ∧ retryFailedSyncs stW1 = stW1 :=
  ⟨(retryFailedSyncs_resets_and_idempotent stW5).1,
   (retryFailedSyncs_resets_and_idempotent stW1).2.1 (by decide)⟩

/-- C5: in every store reachable from the empty store via enqueue, worker
cycles and administrative reset, a `failed` task has `retryCount` exactly
`maxRetries` (5). -/
theorem reachable_failed_has_max_attempts {st : Store} (h : Reachable st) :
    ∀ e ∈ st.cache, e.syncStatus = SyncStatus.failed → e.retryCount = maxRetries :=
  fun e he hf => ((storeInv_reachable h).2.2 e he).1 hf

/-- Witness for C5: after one enqueue and five all-failing worker cycles the
store `stW5` is reachable and its row is `failed` with `retryCount = 5`. -/
theorem reachable_failed_witness :
    (∀ e ∈ stW5.cache, e.syncStatus = SyncStatus.failed → e.retryCount = maxRetries)
    ∧ (findRow stW5 0).map (fun r => r.syncStatus) = some SyncStatus.failed
    ∧ (findRow stW5 0).map (fun r => r.retryCount) = some maxRetries :=
  ⟨reachable_failed_has_max_attempts
      (Reachable.sync failEnvW (Reachable.sync failEnvW (Reachable.sync failEnvW
        (Reachable.sync failEnvW (Reachable.sync failEnvW
          (Reachable.enqueue 42 "p" 1 Reachable.empty)))))),
   by decide, by decide⟩

/-- C6: one worker cycle selects at most `batchSize` (10) tasks, every
selected task is `pending`, and the candidate pool is filtered solely on
`syncStatus = pending`: every pending row of the store is in the pool, with
no condition on `retryCount` or on any timestamp. -/
theorem selection_bounded_and_solely_pending (st : Store) :
    (selectPending st).length ≤ batchSize
    ∧ (∀ e ∈ selectPending st, e.syncStatus = SyncStatus.pending ∧ e ∈ st.cache)
    ∧ (∀ e ∈ st.cache, e.syncStatus = SyncStatus.pending →
        e ∈ st.cache.filter (fun x => x.syncStatus == SyncStatus.pending)) := by
  refine ⟨List.length_take_le _ _, ?_, ?_⟩
  · intro e he
    obtain ⟨hmem, hpend⟩ := mem_selectPending he
    exact ⟨hpend, hmem⟩
  · intro e he hpend
    exact List.mem_filter.mpr ⟨he, by simp [hpend]⟩

/-- Witness for C6 at the two-row store `stW7`. -/
theorem selection_bounded_witness :
    (selectPending stW7).length ≤ batchSize
    ∧ (∀ e ∈ selectPending stW7, e.syncStatus = SyncStatus.pending ∧ e ∈ stW7.cache)
    ∧ (∀ e ∈ stW7.cache, e.syncStatus = SyncStatus.pending →
        e ∈ stW7.cache.filter (fun x => x.syncStatus == SyncStatus.pending)) :=
  selection_bounded_and_solely_pending stW7

/-- C7: per-task failure isolation — in one worker cycle in which the
downstream call of selected task `A` throws, any other selected task `B`
whose attempt succeeds still ends the cycle in state `synced` (and the cycle
itself is a total function: it always runs to completion). -/
theorem batch_isolation_success_still_synced (env : SyncEnv) (st : Store)
    (A B : CacheEntry) (msgA : String) (resp : JsObj)
    (hnd : (st.cache.map (fun e => e.id)).Nodup)
    (hA : A ∈ selectPending st) (hB : B ∈ selectPending st)
    (hAfail : env.outcome A.id = AttemptOutcome.downstreamError msgA)
    (hBok : env.outcome B.id = AttemptOutcome.success resp) :
    findRow (syncPendingAppointments env st) B.id = some (markSynced env.now B) := by
  unfold syncPendingAppointments
  exact findRow_foldl_success env (selectPending st) st B resp hB
    (selectPending_ids_nodup hnd) hBok
    (findRow_eq_of_mem hnd (mem_selectPending hB).1)

/-- Witness for C7: in `stW7`, task 0 throws downstream and task 1 succeeds in
the same cycle; task 1 is `synced` after the cycle. -/
theorem batch_isolation_witness :
    findRow (syncPendingAppointments mixedEnvW stW7) entryW2.id
      = some (markSynced mixedEnvW.now entryW2) :=
  batch_isolation_success_still_synced mixedEnvW stW7 entryW1 entryW2 "boom"
    [("Id", "iq-7")] (by decide) (by decide) (by decide) rfl rfl

/-- C8 (code bug): on a successful sync the worker reads `response.id`, but
the downstream client returns an `IntakeQAppointment` whose identifier
property is `Id`; `response.id` is therefore undefined, and the appointment's
`intakeqId` is never set to the downstream-assigned identifier even though the
task itself is marked `synced`. -/
theorem success_branch_drops_downstream_id :
    okEnvW.outcome entryC8.id = AttemptOutcome.success [("Id", "iq-123")]
    ∧ jsGet [("Id", "iq-123")] "Id" = some "iq-123"
    ∧ jsGet [("Id", "iq-123")] "id" = none
    ∧ ((syncSingleAppointment okEnvW entryC8 stC8).appointments.find?
        (fun a => a.id == 1)).map (fun a => a.intakeqId) = some none
    ∧ (findRow (syncSingleAppointment okEnvW entryC8 stC8) entryC8.id).map
        (fun r => r.syncStatus) = some SyncStatus.synced := by
  refine ⟨rfl, ?_, ?_, ?_, ?_⟩ <;> decide

/-- C9 counterexample: the worker's conditional update is keyed only by row
id — there is no check that the row is still in the state read at selection
time. Applying the failure update with a stale `pending` snapshot to a store
in which the row has meanwhile become `synced` overwrites the row (here all
the way to `failed`), where a compare-and-set would have left it unchanged. -/
theorem update_overwrites_changed_row_cex :
    (findRow stC9 snapC9.id).map (fun r => r.syncStatus) = some SyncStatus.synced
    ∧ snapC9.syncStatus = SyncStatus.pending
    ∧ findRow (syncSingleAppointment failEnvW snapC9 stC9) snapC9.id ≠ findRow stC9 snapC9.id
    ∧ (findRow (syncSingleAppointment failEnvW snapC9 stC9) snapC9.id).map
        (fun r => r.syncStatus) = some SyncStatus.failed := by
  refine ⟨?_, rfl, ?_, ?_⟩ <;> decide

/-- C9 (amended): every worker mutation of a task row is an update keyed
solely by task id and unconditional on the row's current state: whatever row
currently carries the snapshot's id — whatever its state — gets the update
computed from the stale snapshot. -/
theorem update_unconditional_on_state (env : SyncEnv) (entry row : CacheEntry)
    (msg : String) (st : Store)
    (hout : env.outcome entry.id = AttemptOutcome.downstreamError msg)
    (hrow : findRow st entry.id = some row) :
    findRow (syncSingleAppointment env entry st) entry.id
      = some (if maxRetries ≤ entry.retryCount + 1
              then markFailed (entry.retryCount + 1) env.now msg row
              else markRetried (entry.retryCount + 1) env.now msg row) := by
  have h1 : syncSingleAppointment env entry st = recordFailure env entry msg st := by
    simp [syncSingleAppointment, hout]
  rw [h1, findRow_recordFailure, hrow, Option.map_some']
  by_cases h : maxRetries ≤ entry.retryCount + 1
  · simp only [if_pos h]
  · simp only [if_neg h]

/-- Witness for the amended C9: the failure update computed from the stale
snapshot `snapC9` is applied to the now-`synced` row `rowC9`. -/
theorem update_unconditional_witness :
    findRow (syncSingleAppointment failEnvW snapC9 stC9) snapC9.id
      = some (if maxRetries ≤ snapC9.retryCount + 1
              then markFailed (snapC9.retryCount + 1) failEnvW.now "boom" rowC9
              else markRetried (snapC9.retryCount + 1) failEnvW.now "boom" rowC9) :=
  update_unconditional_on_state failEnvW snapC9 rowC9 "boom" stC9 rfl (by decide)

/-- C10: the success transition changes only `syncStatus` and `syncedAt` on
the cache row; `retryCount`, `lastSyncAttempt`, `errorMessage`, `payload`,
`appointmentId` and `createdAt` are all left unchanged — a task that succeeds
after k failed attempts keeps `retryCount = k` and its last recorded
`errorMessage` even though it is now `synced`. -/
theorem success_frame_only_status_and_syncedAt (env : SyncEnv) (entry row : CacheEntry)
    (resp : JsObj) (st : Store)
    (hout : env.outcome entry.id = AttemptOutcome.success resp)
    (hrow : findRow st entry.id = some row) :
    findRow (syncSingleAppointment env entry st) entry.id = some (markSynced env.now row)
    ∧ (markSynced env.now row).retryCount = row.retryCount
    ∧ (markSynced env.now row).lastSyncAttempt = row.lastSyncAttempt
    ∧ (markSynced env.now row).errorMessage = row.errorMessage
    ∧ (markSynced env.now row).payload = row.payload
    ∧ (markSynced env.now row).appointmentId = row.appointmentId
    ∧ (markSynced env.now row).createdAt = row.createdAt
    ∧ (markSynced env.now row).syncStatus = SyncStatus.synced
    ∧ (markSynced env.now row).syncedAt = some env.now := by
  refine ⟨?_, rfl, rfl, rfl, rfl, rfl, rfl, rfl, rfl⟩
  rw [findRow_syncSingle_success env entry st hout, hrow]
  rfl

/-- Witness for C10: a task that succeeds after 3 failed attempts is `synced`
but keeps `retryCount = 3` and `errorMessage = some "prev"`. -/
theorem success_frame_witness :
    findRow (syncSingleAppointment okEnvW rowW10 stW10) rowW10.id
      = some (markSynced okEnvW.now rowW10)
    ∧ (markSynced okEnvW.now rowW10).retryCount = 3
    ∧ (markSynced okEnvW.now rowW10).errorMessage = some "prev" :=
  ⟨(success_frame_only_status_and_syncedAt okEnvW rowW10 rowW10 [("Id", "iq-123")]
      stW10 rfl (by decide)).1, rfl, rfl⟩

end Retell
